import Mathlib

/-!
Verification of the reconciliation engine of the filevineDashboard server.

The Python sources are shallowly embedded: each definition below is a direct
translation of the function of the same (or closely corresponding) name in the
repository.  Machine integers are `Int`/`Nat`; Python `float` values are
idealised as exact rationals (`Rat`), which is faithful for the short decimal
literals that flow through these loaders; Python `dict`s whose keys are unique
are association lists in insertion order; code that can raise returns
`Except PyErr`.  Database reads/writes are modelled as an explicit store that
returns exactly the row last written (the identity round-trip abstraction).
Every UPSERT string of filevine_loader_withTimeStamp.py carries a dangling
`last_updated = NOW()` clause after the statement-ending semicolon; the
driver sends the string whole and PostgreSQL parses the full multi-statement
text before executing anything, so executing any of these upserts raises a
syntax error (after the client-side bind of the named parameters, whose
absence raises first) and never writes a row.
-/

namespace FilevineDash

/-- A Python runtime value as it occurs in the loaders: `None`, a bool, an
int, a float (idealised as an exact rational), a string, or an opaque
datetime/date object identified by an abstract tick count. -/
inductive Value where
  | none : Value
  | bool : Bool → Value
  | int : Int → Value
  | num : Rat → Value
  | str : String → Value
  | time : Nat → Value
deriving DecidableEq, Repr

/-- Python truthiness of a `Value` (`bool(v)`). -/
def truthy : Value → Bool
  | Value.none => false
  | Value.bool b => b
  | Value.int n => n != 0
  | Value.num q => q != 0
  | Value.str s => s ≠ ""
  | Value.time _ => true

/-- Python `v or ""`: keep `v` when truthy, otherwise the empty string. -/
def orEmpty (v : Value) : Value :=
  if truthy v then v else Value.str ""

/-- Decimal digits of `n`, most significant first (`[0]` for `0`). -/
def natDigits (n : Nat) : List Char :=
  (Nat.toDigits 10 n)

/-- Fractional decimal digits of `num/den`, by long division, at most `fuel`
digits (Python float strings are finite; 17 digits suffice for the values in
this code base). -/
def fracDigits (fuel : Nat) (num den : Nat) : List Char :=
  match fuel with
  | 0 => []
  | fuel + 1 =>
    if num = 0 then []
    else
      let d := num * 10 / den
      (Nat.toDigits 10 d).headD '0' :: fracDigits fuel (num * 10 % den) den

/-- `str()` of an idealised Python float: integer part, a dot, then the
fractional digits (at least one, so `str(100.0) = "100.0"`). -/
def numRepr (q : Rat) : String :=
  let sign := if q < 0 then "-" else ""
  let n := q.num.natAbs
  let d := q.den
  let ip := String.mk (natDigits (n / d))
  let fr := fracDigits 17 (n % d) d
  sign ++ ip ++ "." ++ String.mk (if fr = [] then ['0'] else fr)

/-- Python `str(v)` for the values compared by the differ. -/
def pyStr : Value → String
  | Value.none => "None"
  | Value.bool b => if b then "True" else "False"
  | Value.int n => toString n
  | Value.num q => numRepr q
  | Value.str s => s
  | Value.time n => "datetime-" ++ toString n

/-- Python whitespace characters (the ASCII ones `str.strip` removes). -/
def isPyWs (c : Char) : Bool :=
  c = ' ' || c = '\t' || c = '\n' || c = '\r' || c = '\x0b' || c = '\x0c'

/-- `s.strip()` on the character list. -/
def stripChars (l : List Char) : List Char :=
  ((l.dropWhile isPyWs).reverse.dropWhile isPyWs).reverse

def isDigitCh (c : Char) : Bool := '0' ≤ c && c ≤ '9'

def digitVal (c : Char) : Nat := c.toNat - 48

def digitsToNat (l : List Char) : Nat :=
  l.foldl (fun acc c => acc * 10 + digitVal c) 0

/-- Parse an optional sign, returning the sign (1 or -1) and the rest. -/
def takeSign : List Char → Int × List Char
  | '-' :: rest => (-1, rest)
  | '+' :: rest => (1, rest)
  | l => (1, l)

/-- Parse the digits-dot-digits-exponent body of a Python decimal literal:
returns (mantissa, scale) with value = mantissa / 10^scale, or `none`.
Shared by the models of `float(s)` and `Decimal(s)` (both accept
`[sign] (digits [. digits] | . digits) [(e|E) [sign] digits]`; the special
values inf/nan are not modelled — no loader value takes those shapes, and
`Decimal` quantize raises on them so the enclosing parser yields absence
either way). -/
def parseDecBody (l : List Char) : Option (Int × Nat) :=
  let (sgn, l) := takeSign l
  let ip := l.takeWhile isDigitCh
  let l1 := l.dropWhile isDigitCh
  let (fp, l2) :=
    match l1 with
    | '.' :: rest => (rest.takeWhile isDigitCh, rest.dropWhile isDigitCh)
    | _ => ([], l1)
  if ip = [] ∧ fp = [] then Option.none
  else
    let m : Int := sgn * (digitsToNat (ip ++ fp) : Int)
    let sc : Nat := fp.length
    match l2 with
    | [] => Option.some (m, sc)
    | e :: rest =>
      if e = 'e' ∨ e = 'E' then
        let (esgn, rest) := takeSign rest
        let ed := rest.takeWhile isDigitCh
        let rest2 := rest.dropWhile isDigitCh
        if ed = [] ∨ rest2 ≠ [] then Option.none
        else
          let ex : Int := esgn * (digitsToNat ed : Int)
          if ex ≥ sc then Option.some (m * (10 : Int) ^ (ex - sc).toNat, 0)
          else Option.some (m, sc - ex.toNat)
      else Option.none

/-- The rational value of a parsed (mantissa, scale) pair. -/
def decValue (p : Int × Nat) : Rat := (p.1 : Rat) / ((10 : Rat) ^ p.2)

/-- Model of Python `float(s)` on the decimal strings that occur in the
loaders: strip whitespace, parse a signed decimal literal, idealised to the
exact rational it denotes. -/
def parseFloat (s : String) : Option Rat :=
  (parseDecBody (stripChars s.data)).map decValue

/-- The Python exceptions the embedded code can raise. -/
inductive PyErr where
  | valueError : PyErr
  | typeError : PyErr
  | nameError : PyErr
  | bindError : PyErr
  | programmingError : PyErr
deriving DecidableEq, Repr

deriving instance DecidableEq for Except

/-- `float(v)` as used inside `detect_changes` (after the `None`/"N/A" guard):
numbers pass through, numeric strings parse, everything else raises. -/
def pyFloatE (v : Value) : Except PyErr Value :=
  match v with
  | Value.num q => Except.ok (Value.num q)
  | Value.int n => Except.ok (Value.num n)
  | Value.bool b => Except.ok (Value.num (if b then 1 else 0))
  | Value.str s =>
    match parseFloat s with
    | Option.some q => Except.ok (Value.num q)
    | Option.none => Except.error PyErr.valueError
  | Value.none => Except.error PyErr.typeError
  | Value.time _ => Except.error PyErr.typeError

/-- `float(v) if v not in [None, "N/A"] else None`
(filevine_loader_withTimeStamp.py, detect_changes, lines 438-439). -/
def toAmountE (v : Value) : Except PyErr Value :=
  if v = Value.none ∨ v = Value.str "N/A" then Except.ok Value.none
  else pyFloatE v

/-- A Python dict with string keys, in insertion order (the loaders only ever
build dicts with unique keys). -/
abbrev Row := List (String × Value)

def rowGet (r : Row) (k : String) : Option Value :=
  match r with
  | [] => Option.none
  | (k', v) :: rest => if k' = k then Option.some v else rowGet rest k

def rowHasKey (r : Row) (k : String) : Bool :=
  match r with
  | [] => false
  | (k', _) :: rest => k' = k || rowHasKey rest k

/-- `d[k] = v` on a dict: overwrite in place if the key exists (keeping its
position), else append. -/
def rowSet (r : Row) (k : String) (v : Value) : Row :=
  match r with
  | [] => [(k, v)]
  | (k', v') :: rest => if k' = k then (k, v) :: rest else (k', v') :: rowSet rest k v

/-- `d.update(other)` on dicts. -/
def rowUpdate (r other : Row) : Row :=
  other.foldl (fun acc kv => rowSet acc kv.1 kv.2) r

/-- `field == 'settled_amount' or field.endswith('_amount')`. -/
def isAmountKey (k : String) : Bool :=
  k = "settled_amount" || List.isSuffixOf "_amount".data k.data

/-- One field comparison of `detect_changes`: amount fields are first pushed
through `float` (raising on non-numeric values), then both sides are compared
as `str(old or "") != str(new or "")`; returns the change entry, if any. -/
def compareField (k : String) (oldv newv : Value) :
    Except PyErr (Option (String × Value × Value)) := do
  let (o, n) ←
    if isAmountKey k then do
      let o ← toAmountE oldv
      let n ← toAmountE newv
      pure (o, n)
    else pure (oldv, newv)
  pure (if pyStr (orEmpty o) ≠ pyStr (orEmpty n) then Option.some (k, o, n) else Option.none)

/-- The field loop of `detect_changes`: iterate the persisted row's keys,
skip keys absent from the new row, collect change entries in order. -/
def detectAux (new : Row) : List (String × Value) → Except PyErr (List (String × Value × Value))
  | [] => Except.ok []
  | (k, oldv) :: rest =>
    if rowHasKey new k then do
      let c ← compareField k oldv ((rowGet new k).getD Value.none)
      let cs ← detectAux new rest
      pure (c.toList ++ cs)
    else detectAux new rest

/-- `detect_changes(current_data, new_data)`
(filevine_loader_withTimeStamp.py lines 423-444): returns
`(bool(changes), changes)`. -/
def detect_changes (current new : Row) : Except PyErr (Bool × List (String × Value × Value)) :=
  (detectAux new current).map (fun cs => (cs ≠ [], cs))

/-- The persisted rows of the seven tables for one record identifier
(`None` = the row does not exist).  Reads return exactly the row last
written (identity round-trip abstraction over the relational store). -/
structure Store where
  projects : Option Row
  contacts : Option Row
  negotiation : Option Row
  insurance_info : Option Row
  breakdown_info : Option Row
  lit_case_review : Option Row
  demand_info : Option Row
deriving DecidableEq, Repr

/-- The store with no rows for this record (a never-before-seen identifier). -/
def emptyStore : Store :=
  ⟨Option.none, Option.none, Option.none, Option.none, Option.none, Option.none, Option.none⟩

def Store.get (s : Store) (t : String) : Option Row :=
  if t = "projects" then s.projects
  else if t = "contacts" then s.contacts
  else if t = "negotiation" then s.negotiation
  else if t = "insurance_info" then s.insurance_info
  else if t = "breakdown_info" then s.breakdown_info
  else if t = "lit_case_review" then s.lit_case_review
  else if t = "demand_info" then s.demand_info
  else Option.none

/-- `current_data[table] = dict(result._asdict()) if result else {}`. -/
def currentRowOf (s : Store) (t : String) : Row := (s.get t).getD []

/-- The `tables` list of `load_project` (read/diff order, line 916). -/
def tablesList : List String :=
  ["projects", "contacts", "negotiation", "insurance_info", "breakdown_info",
   "lit_case_review", "demand_info"]

/-- The freshly fetched-and-normalised `new_data` rows of `load_project`
(lines 951-1013).  Their construction from the raw API payloads is a
deterministic record build (field resolution and normalisation); the
reconciliation theorems quantify over the resulting rows. -/
structure NewData where
  projects : Row
  contacts : Row
  negotiation : Row
  insurance_info : Row
  breakdown_info : Row
  lit_case_review : Row
  demand_info : Row
deriving DecidableEq, Repr

def ndRow (nd : NewData) (t : String) : Row :=
  if t = "projects" then nd.projects
  else if t = "contacts" then nd.contacts
  else if t = "negotiation" then nd.negotiation
  else if t = "insurance_info" then nd.insurance_info
  else if t = "breakdown_info" then nd.breakdown_info
  else if t = "lit_case_review" then nd.lit_case_review
  else if t = "demand_info" then nd.demand_info
  else []

/-- `update_data = {"project_id": pid, "last_updated": datetime.now()}` then
`for table_data in new_data.values(): update_data.update(table_data)` —
the rows merge in the insertion order of the `new_data` dict (projects,
negotiation, insurance_info, breakdown_info, lit_case_review, demand_info,
contacts), later rows overwriting colliding keys (lines 1040-1047). -/
def mergedUpdateData (pid : Int) (now : Nat) (nd : NewData) : Row :=
  [nd.projects, nd.negotiation, nd.insurance_info, nd.breakdown_info,
   nd.lit_case_review, nd.demand_info, nd.contacts].foldl rowUpdate
    [("project_id", Value.int pid), ("last_updated", Value.time now)]

/-- Column ← named-parameter assignments of UPSERT_PROJECT (lines 448-475). -/
def specProjects : List (String × String) :=
  [("project_id", "project_id"), ("project_name", "project_name"),
   ("phase_name", "phase_name"), ("incident_date", "incident_date"),
   ("sol_due_date", "sol_due_date"), ("total_meds", "total_meds"),
   ("policy_limits", "policy_limits"), ("personal_injury_type", "personal_injury_type"),
   ("liability_decision", "liability_decision"), ("last_offer", "last_offer"),
   ("date_of_incident", "date_of_incident"), ("client_contact_count", "client_contact_count"),
   ("latest_client_contact", "latest_client_contact"), ("project_type_code", "project_type_code")]

/-- Column ← named-parameter assignments of UPSERT_NEGOTIATION (lines 477-494). -/
def specNegotiation : List (String × String) :=
  [("project_id", "project_id"), ("negotiator", "negotiator"),
   ("settlement_date", "settlement_date"), ("settled", "settled"),
   ("settled_amount", "settled_amount"), ("last_offer", "last_offer"),
   ("last_offer_date", "last_offer_date"), ("date_assigned_to_nego", "date_assigned_to_nego")]

/-- UPSERT_INSURANCE binds `:def_name`/`:cli_name` (lines 496-506). -/
def specInsurance : List (String × String) :=
  [("project_id", "project_id"), ("defendant_insurance_name", "def_name"),
   ("client_insurance_name", "cli_name")]

/-- UPSERT_BREAKDOWN binds `:lien_name` etc. (lines 508-524). -/
def specBreakdown : List (String × String) :=
  [("project_id", "project_id"), ("lien_negotiator_name", "lien_name"),
   ("lien_negotiator_company", "lien_company"), ("lien_negotiator_title", "lien_title"),
   ("lien_negotiator_dept", "lien_dept"), ("date_assigned", "date_assigned"),
   ("date_completed", "date_completed")]

/-- Column ← named-parameter assignments of UPSERT_LIT (lines 526-544). -/
def specLit : List (String × String) :=
  [("project_id", "project_id"), ("trial_date", "trial_date"),
   ("date_complaint_filed", "date_complaint_filed"),
   ("date_attorney_assigned", "date_attorney_assigned"),
   ("settlement_amount", "settlement_amount"), ("settlement_date", "settlement_date"),
   ("dismissal_filed_on", "dismissal_filed_on")]

/-- Column ← named-parameter assignments of UPSERT_DEMAND (lines 546-556). -/
def specDemand : List (String × String) :=
  [("project_id", "project_id"), ("demand_approved", "demand_approved"),
   ("approved_by", "approved_by")]

/-- Column ← named-parameter assignments of UPSERT_CONTACTS (lines 558-572). -/
def specContacts : List (String × String) :=
  [("project_id", "project_id"), ("case_manager", "case_manager"),
   ("supervisor", "supervisor"), ("attorney", "attorney"), ("paralegal", "paralegal")]

/-- The client-side bind step of `conn.execute(UPSERT_*, update_data)`:
look up every named parameter of the statement in the merged `update_data`
(`None` when one is missing — SQLAlchemy raises a StatementError before
anything is sent to the server). -/
def extractCols (merged : Row) : List (String × String) → Option Row
  | [] => Option.some []
  | cp :: rest =>
    match rowGet merged cp.2, extractCols merged rest with
    | Option.some v, Option.some cols => Option.some ((cp.1, v) :: cols)
    | _, _ => Option.none

/-- Execute one of the UPSERT_* statements.  The named parameters are bound
client-side first — a parameter missing from the merged `update_data`
raises before anything reaches the server — and the bound SQL string is
then sent to PostgreSQL whole.  Every one of these UPSERT strings ends its
statement with a semicolon followed by the dangling clause
`last_updated = NOW()`; the server parses the entire multi-statement string
before executing anything and reports a syntax error at that clause, so
`conn.execute` always raises and no upsert of this loader ever writes a
row.  (`old` and `now` stay in the signature for the call sites; no
successful write exists to use them.) -/
def execUpsert (spec : List (String × String)) (merged : Row) (_old : Option Row)
    (_now : Nat) : Except PyErr Row :=
  match extractCols merged spec with
  | Option.some _ => Except.error PyErr.programmingError
  | Option.none => Except.error PyErr.bindError

/-- One table's step of the diff loop of `load_project` (lines 1019-1026):
whether this table has changes. -/
def diffTable (s : Store) (nd : NewData) (t : String) : Except PyErr Bool :=
  (detect_changes (currentRowOf s t) (ndRow nd t)).map Prod.fst

/-- `load_project(pid)` (filevine_loader_withTimeStamp.py lines 909-1072):
read the persisted rows, diff each of the seven tables in the `tables` order,
return early with no writes when the project payload is empty or when no
table changed; otherwise execute, inside one transaction, the upserts of
exactly the changed tables (in the write order of lines 1051-1064) against
the merged `update_data` dict.  Returns the resulting store and the list of
tables written; an error aborts the transaction (the caller keeps the old
store) and propagates, as `load_project` re-raises.  `pjEmpty` models
`not pj` for the `/core/projects/{pid}` payload; `nd` is the computed
`new_data`. -/
def load_project (pid : Int) (now : Nat) (s : Store) (pjEmpty : Bool) (nd : NewData) :
    Except PyErr (Store × List String) :=
  if pjEmpty then Except.ok (s, [])
  else do
    let cp ← diffTable s nd "projects"
    let cc ← diffTable s nd "contacts"
    let cn ← diffTable s nd "negotiation"
    let ci ← diffTable s nd "insurance_info"
    let cb ← diffTable s nd "breakdown_info"
    let cl ← diffTable s nd "lit_case_review"
    let cd ← diffTable s nd "demand_info"
    if cp || cc || cn || ci || cb || cl || cd then do
      let merged := mergedUpdateData pid now nd
      let rowP ← if cp then (execUpsert specProjects merged s.projects now).map Option.some
                 else Except.ok s.projects
      let rowN ← if cn then (execUpsert specNegotiation merged s.negotiation now).map Option.some
                 else Except.ok s.negotiation
      let rowI ← if ci then (execUpsert specInsurance merged s.insurance_info now).map Option.some
                 else Except.ok s.insurance_info
      let rowB ← if cb then (execUpsert specBreakdown merged s.breakdown_info now).map Option.some
                 else Except.ok s.breakdown_info
      let rowL ← if cl then (execUpsert specLit merged s.lit_case_review now).map Option.some
                 else Except.ok s.lit_case_review
      let rowD ← if cd then (execUpsert specDemand merged s.demand_info now).map Option.some
                 else Except.ok s.demand_info
      let rowC ← if cc then (execUpsert specContacts merged s.contacts now).map Option.some
                 else Except.ok s.contacts
      Except.ok (⟨rowP, rowC, rowN, rowI, rowB, rowL, rowD⟩,
        (if cp then ["projects"] else []) ++ (if cn then ["negotiation"] else []) ++
        (if ci then ["insurance_info"] else []) ++ (if cb then ["breakdown_info"] else []) ++
        (if cl then ["lit_case_review"] else []) ++ (if cd then ["demand_info"] else []) ++
        (if cc then ["contacts"] else []))
    else Except.ok (s, [])

section ConcreteRecord

/-- A fetched `new_data["projects"]` row (lines 952-967), concrete instance. -/
def ndProjectsRow : Row :=
  [("project_id", Value.int 1), ("project_name", Value.str "A"), ("phase_name", Value.none),
   ("incident_date", Value.none), ("sol_due_date", Value.none), ("total_meds", Value.none),
   ("policy_limits", Value.str "N/A"), ("personal_injury_type", Value.str "N/A"),
   ("liability_decision", Value.str "N/A"), ("last_offer", Value.str "N/A"),
   ("date_of_incident", Value.none), ("client_contact_count", Value.int 0),
   ("latest_client_contact", Value.none), ("project_type_code", Value.str "LOJE 2.0")]

/-- A fetched `new_data["negotiation"]` row (lines 968-977): the negotiation
form reports settlementDate 2020-01-01 and settledAmount 200.0. -/
def ndNegoRow : Row :=
  [("project_id", Value.int 1), ("negotiator", Value.str "Bob"),
   ("settlement_date", Value.str "2020-01-01"), ("settled", Value.str "N/A"),
   ("settled_amount", Value.num 200), ("last_offer", Value.str "N/A"),
   ("last_offer_date", Value.none), ("date_assigned_to_nego", Value.none)]

/-- A fetched `new_data["insurance_info"]` row (lines 978-982). -/
def ndInsRow : Row :=
  [("project_id", Value.int 1), ("defendant_insurance_name", Value.str "N/A"),
   ("client_insurance_name", Value.str "N/A")]

/-- A fetched `new_data["breakdown_info"]` row (lines 983-991). -/
def ndBrRow : Row :=
  [("project_id", Value.int 1), ("lien_negotiator_name", Value.str "N/A"),
   ("lien_negotiator_company", Value.str "N/A"), ("lien_negotiator_title", Value.str "N/A"),
   ("lien_negotiator_dept", Value.str "N/A"), ("date_assigned", Value.none),
   ("date_completed", Value.none)]

/-- A fetched `new_data["lit_case_review"]` row (lines 992-1000): the
litigation form reports settlementDate 2021-02-02 — a different date than
the negotiation form, as the two forms are independent upstream sources. -/
def ndLitRow : Row :=
  [("project_id", Value.int 1), ("trial_date", Value.none), ("date_complaint_filed", Value.none),
   ("date_attorney_assigned", Value.none), ("settlement_amount", Value.str "N/A"),
   ("settlement_date", Value.str "2021-02-02"), ("dismissal_filed_on", Value.none)]

/-- A fetched `new_data["demand_info"]` row (lines 1001-1005). -/
def ndDemRow : Row :=
  [("project_id", Value.int 1), ("demand_approved", Value.none), ("approved_by", Value.str "N/A")]

/-- A fetched `new_data["contacts"]` row (lines 1006-1012). -/
def ndConRow : Row :=
  [("project_id", Value.int 1), ("case_manager", Value.str "N/A"), ("supervisor", Value.str "N/A"),
   ("attorney", Value.str "N/A"), ("paralegal", Value.str "N/A")]

/-- The complete fetched snapshot built from one upstream response set. -/
def sampleNewData : NewData :=
  ⟨ndProjectsRow, ndConRow, ndNegoRow, ndInsRow, ndBrRow, ndLitRow, ndDemRow⟩

/-- A `last_updated` column entry. -/
def lu (n : Nat) : String × Value := ("last_updated", Value.time n)

/-- The persisted negotiation row: identical to the fetched one except that
`settled_amount` is still 100.0 — exactly one upstream field changed. -/
def storedNegoRow : Row :=
  [("project_id", Value.int 1), ("negotiator", Value.str "Bob"),
   ("settlement_date", Value.str "2020-01-01"), ("settled", Value.str "N/A"),
   ("settled_amount", Value.num 100), ("last_offer", Value.str "N/A"),
   ("last_offer_date", Value.none), ("date_assigned_to_nego", Value.none)]

/-- A store in which every entity row equals its fetched counterpart except
the negotiation row's `settled_amount`. -/
def sampleStore : Store :=
  ⟨Option.some (ndProjectsRow ++ [lu 50]), Option.some (ndConRow ++ [lu 50]),
   Option.some (storedNegoRow ++ [lu 50]), Option.some (ndInsRow ++ [lu 50]),
   Option.some (ndBrRow ++ [lu 50]), Option.some (ndLitRow ++ [lu 50]),
   Option.some (ndDemRow ++ [lu 50])⟩

end ConcreteRecord

/-- An HTTP response as `fetch_json` sees it: a status code and the parsed
JSON body (a dict; `{}` both for an empty body and for the error fallback). -/
structure HttpResp where
  status : Nat
  body : Row
deriving DecidableEq, Repr

/-- `fetch_json(endpoint)` (filevine_loader_withTimeStamp.py lines 114-132)
over the scripted sequence of responses the server would return to the
successive requests of this call.  On 401 the request is retried once with
fresh headers and `raise_for_status` is then applied to the retry response
with no further 401/429 handling; on 429 the function sleeps and calls
itself; any `raise_for_status` failure is caught by the enclosing
`except requests.exceptions.RequestException` which prints and returns `{}`.
Result: the value the caller receives (`Option.none` only when the script is
exhausted, a model artifact) paired with the number of HTTP requests
issued. -/
def fetch_json : List HttpResp → Option Row × Nat
  | [] => (Option.none, 0)
  | r :: rest =>
    if r.status = 401 then
      match rest with
      | [] => (Option.none, 1)
      | r2 :: _ =>
        if 400 ≤ r2.status then (Option.some [], 2)
        else (Option.some r2.body, 2)
    else if r.status = 429 then
      let p := fetch_json rest
      (p.1, p.2 + 1)
    else if 400 ≤ r.status then (Option.some [], 1)
    else (Option.some r.body, 1)

/-- An upstream "vital" field record: optional human label, optional machine
field name, optional type tag, and the value. -/
structure Vital where
  friendlyName : Option String
  fieldName : Option String
  fieldType : Option String
  value : Value
deriving DecidableEq, Repr

/-- `re.sub(r"[:\s]+$", "", s)`: remove the trailing run of colons and
whitespace. -/
def dropTrailingColonWs (l : List Char) : List Char :=
  (l.reverse.dropWhile (fun c => c = ':' || isPyWs c)).reverse

/-- ASCII `str.lower()`. -/
def lowerChars (l : List Char) : List Char :=
  l.map (fun c => if 'A' ≤ c ∧ c ≤ 'Z' then Char.ofNat (c.toNat + 32) else c)

/-- The normal form applied to each requested friendly name:
`re.sub(r"[:\s]+$", "", n).strip().lower()`. -/
def normTarget (s : String) : List Char :=
  lowerChars (stripChars (dropTrailingColonWs s.data))

/-- The normal form applied to each vital's friendlyName:
`fn = (it.get("friendlyName") or "").strip()` then
`re.sub(r"[:\s]+$", "", fn).lower()`. -/
def normItem (s : String) : List Char :=
  lowerChars (dropTrailingColonWs (stripChars s.data))

/-- Membership of a vital in the friendly-name tier. -/
def labelHit (fns : List String) (it : Vital) : Bool :=
  fns.any (fun n => normTarget n = normItem (it.friendlyName.getD ""))

/-- `pref.rstrip("*")`. -/
def dropTrailingStars (l : List Char) : List Char :=
  (l.reverse.dropWhile (fun c => c = '*')).reverse

/-- Membership of a vital in the fieldName-prefix tier:
`fname.startswith(pref.rstrip("*"))` for some requested machine-name stem
(the digits upstream appends to the field name sit after the stem, so the
test ignores them). -/
def prefHit (fps : List String) (it : Vital) : Bool :=
  fps.any (fun p => List.isPrefixOf (dropTrailingStars p.data) (it.fieldName.getD "").data)

/-- Membership of a vital in the requested type set (case-insensitive). -/
def typeHit (wts : List String) (it : Vital) : Bool :=
  wts.any (fun t => lowerChars t.data = lowerChars (it.fieldType.getD "").data)

/-- The third stage of `_pick_vital`: narrow by type only when a type
constraint was given, candidates exist, and at least one candidate satisfies
it; otherwise the constraint is dropped. -/
def narrowByType (wts : List String) (cands : List Vital) : List Vital :=
  if wts ≠ [] ∧ cands ≠ [] then
    let typed := cands.filter (typeHit wts)
    if typed ≠ [] then typed else cands
  else cands

/-- `_pick_vital(vitals, friendly_names=…, fieldname_prefixes=…, want_types=…)`
(filevine_loader_incident_Meds_update.py lines 98-133, identically in
filevine_loader_withTimeStamp_print.py lines 149-186): friendly-name matches
first in list order; only when there are none, fieldName-stem matches; then
the optional type narrowing; the first remaining candidate wins, none
resolves to `None`. -/
def _pick_vital (vitals : List Vital) (friendly_names fieldname_prefs want_types : List String) :
    Option Vital :=
  let cands1 := if friendly_names ≠ [] then vitals.filter (labelHit friendly_names) else []
  let cands2 :=
    if cands1 = [] ∧ fieldname_prefs ≠ [] then vitals.filter (prefHit fieldname_prefs)
    else cands1
  (narrowByType want_types cands2).head?

/-- A mock upstream source: pages of decreasing size down to an empty page
(page 0 has three items, page 1 one, page 2 none). -/
def samplePages (k : Nat) : List Int :=
  if k = 0 then [1, 2, 3] else if k = 1 then [4] else []

/-- A vital whose machine field name matches the stem `sumOfamountbilled`
(with upstream numeric suffix 37) but which carries no human label. -/
def vitMachine : Vital :=
  ⟨Option.none, Option.some "sumOfamountbilled37", Option.some "Currency", Value.num 5⟩

/-- A vital carrying the human label `"Total Meds:"`, placed after
`vitMachine` in the list. -/
def vitLabel : Vital :=
  ⟨Option.some "Total Meds:", Option.some "other99", Option.some "Currency", Value.num 7⟩

/-- `str(v).strip().replace(",", "").replace("$", "")`, plus the underscore
removal `Decimal` itself performs on its string argument. -/
def cleanCurrency (s : String) : List Char :=
  (stripChars s.data).filter (fun c => ¬(c = ',' ∨ c = '$' ∨ c = '_'))

/-- Round-half-up (ties away from zero, as `ROUND_HALF_UP`) of `a / b` for
`b > 0`. -/
def halfUpDiv (a : Int) (b : Nat) : Int :=
  let q := (2 * a.natAbs + b) / (2 * b)
  if a < 0 then -(q : Int) else (q : Int)

/-- `Decimal.quantize(Decimal("0.01"), rounding=ROUND_HALF_UP)` of the value
`m / 10^sc`, expressed in hundredths. -/
def quantCents (m : Int) (sc : Nat) : Int :=
  if sc ≤ 2 then m * (10 : Int) ^ (2 - sc)
  else halfUpDiv m (10 ^ (sc - 2))

/-- `_parse_currency_decimal(v)`
(filevine_loader_incident_Meds_update.py lines 239-254): `None`, `""`,
`"N/A"`, `"None"` map to absence; strings are stripped, freed of thousands
separators and a currency symbol, parsed by `Decimal` and quantised to two
decimal digits half-up; ints and floats go through `str(v)` and the same
parse (idealised as exact); any `InvalidOperation`/`ValueError` is caught
and maps to absence.  The result is the fixed-point value in hundredths. -/
def _parse_currency_decimal (v : Value) : Option Int :=
  if v = Value.none ∨ v = Value.str "" ∨ v = Value.str "N/A" ∨ v = Value.str "None" then
    Option.none
  else
    match v with
    | Value.str s =>
      match parseDecBody (cleanCurrency s) with
      | Option.some p => Option.some (quantCents p.1 p.2)
      | Option.none => Option.none
    | Value.int n => Option.some (n * 100)
    | Value.num q => Option.some (halfUpDiv (q.num * 100) q.den)
    | _ => Option.none

/-- The character of a decimal digit. -/
def digitChar : Nat → Char
  | 0 => '0' | 1 => '1' | 2 => '2' | 3 => '3' | 4 => '4'
  | 5 => '5' | 6 => '6' | 7 => '7' | 8 => '8' | 9 => '9'
  | _ => '*'

/-- The two-digit decimal form of `n < 100` (as `strftime("%m")`/`"%d"`). -/
def pad2 (n : Nat) : List Char := [digitChar (n / 10 % 10), digitChar (n % 10)]

/-- The four-digit decimal form of `n < 10000` (as `strftime("%Y")`, which
the Python documentation renders zero-padded: 0001, …, 2014). -/
def pad4 (n : Nat) : List Char :=
  [digitChar (n / 1000 % 10), digitChar (n / 100 % 10), digitChar (n / 10 % 10), digitChar (n % 10)]

/-- Python `s.split("-")`: always at least one part; `"".split("-") = [""]`. -/
def splitDash : List Char → List (List Char)
  | [] => [[]]
  | c :: cs =>
    if c = '-' then [] :: splitDash cs
    else
      match splitDash cs with
      | [] => [[c]]
      | h :: t => (c :: h) :: t

/-- Python `s.zfill(w)`: left-pad with zeros to width `w`, keeping a leading
sign in front of the padding. -/
def zfill (w : Nat) (l : List Char) : List Char :=
  if l.length ≥ w then l
  else
    match l with
    | c :: rest =>
      if c = '+' ∨ c = '-' then c :: List.replicate (w - l.length) '0' ++ rest
      else List.replicate (w - l.length) '0' ++ l
    | [] => List.replicate w '0'

/-- `mmddyyyy_to_iso(s)` (filevine_loader_incident_Meds_update.py lines
55-63): `None` for `""`/`"N/A"`; otherwise unpack exactly three
dash-separated parts (anything else raises and is caught, giving `None`)
and rebuild as `f"{y}-{m.zfill(2)}-{d.zfill(2)}"`. -/
def mmddyyyy_to_iso (s : String) : Option String :=
  if s = "" ∨ s = "N/A" then Option.none
  else
    match splitDash s.data with
    | [m, d, y] => Option.some (String.mk (y ++ '-' :: zfill 2 m ++ '-' :: zfill 2 d))
    | _ => Option.none

/-- Gregorian month length, as `datetime.date` validates it. -/
def daysInMonth (y m : Nat) : Nat :=
  if m = 2 then (if y % 4 = 0 ∧ (y % 100 ≠ 0 ∨ y % 400 = 0) then 29 else 28)
  else if m = 4 ∨ m = 6 ∨ m = 9 ∨ m = 11 then 30 else 31

/-- `datetime.fromisoformat` on a ten-character prefix: accepts exactly
`YYYY-MM-DD` with a valid calendar date (year 1-9999), else raises. -/
def parseIsoDate (l : List Char) : Option (Nat × Nat × Nat) :=
  match l with
  | [y1, y2, y3, y4, s1, m1, m2, s2, d1, d2] =>
    if s1 = '-' ∧ s2 = '-' ∧ ([y1, y2, y3, y4, m1, m2, d1, d2].all isDigitCh) then
      let y := digitsToNat [y1, y2, y3, y4]
      let m := digitsToNat [m1, m2]
      let d := digitsToNat [d1, d2]
      if 1 ≤ y ∧ y ≤ 9999 ∧ 1 ≤ m ∧ m ≤ 12 ∧ 1 ≤ d ∧ d ≤ daysInMonth y m then
        Option.some (y, m, d)
      else Option.none
    else Option.none
  | _ => Option.none

/-- `format_date(datestr)` (filevine_loader_incident_Meds_update.py lines
65-73): `"N/A"` for a falsy or unparseable input, otherwise
`datetime.fromisoformat(datestr[:10]).strftime("%m-%d-%Y")`. -/
def format_date (s : String) : String :=
  if s = "" then "N/A"
  else
    match parseIsoDate (s.data.take 10) with
    | Option.some ymd => String.mk (pad2 ymd.2.1 ++ '-' :: pad2 ymd.2.2 ++ '-' :: pad4 ymd.1)
    | Option.none => "N/A"

/-- The canonical `MM-DD-YYYY` rendering of a date. -/
def renderMMDDYYYY (y m d : Nat) : String :=
  String.mk (pad2 m ++ '-' :: pad2 d ++ '-' :: pad4 y)

/-- A real calendar date in the range `fromisoformat` accepts. -/
def isValidDate (y m d : Nat) : Prop :=
  1 ≤ y ∧ y ≤ 9999 ∧ 1 ≤ m ∧ m ≤ 12 ∧ 1 ≤ d ∧ d ≤ daysInMonth y m

instance (y m d : Nat) : Decidable (isValidDate y m d) := by
  unfold isValidDate; infer_instance

/-- A valid `MM-DD-YYYY` date string: two-digit month and day, four-digit
year, denoting a real calendar date. -/
def isValidMMDDYYYY (s : String) : Prop :=
  ∃ y m d, isValidDate y m d ∧ s = renderMMDDYYYY y m d

/-- The pagination loop of `get_projects_by_type`
(filevine_loader_withTimeStamp.py lines 594-662), over the upstream pages
(`pages k` is the `items` of the response at offset `k * 100`; each item is
already its `projectId.native`).  Transport-failure retries are not modelled
(the oracle always answers; a 401 retry repeats the same offset).  The loop
appends each page, breaking per item once a numeric `limit` is reached, and
stops at the first empty page; the `fuel` argument bounds the number of
iterations of the source's `while True` (the theorems show the result is
fuel-independent once the first empty page is reachable).  Returns the
accumulated ids and the list of offsets requested, in request order. -/
def gptLoop (pages : Nat → List Int) (limitO : Option Nat) :
    Nat → Nat → List Int → List Int × List Nat
  | 0, _, acc => (acc, [])
  | fuel + 1, k, acc =>
    let items := pages k
    if items = [] then (acc, [k * 100])
    else
      match limitO with
      | Option.some L =>
        let acc2 := acc ++ items.take (L - acc.length)
        if acc2.length ≥ L then (acc2, [k * 100])
        else
          let r := gptLoop pages limitO fuel (k + 1) acc2
          (r.1, k * 100 :: r.2)
      | Option.none =>
        let r := gptLoop pages limitO fuel (k + 1) (acc ++ items)
        (r.1, k * 100 :: r.2)

/-- `get_projects_by_type(code, limit)`: run the pagination loop from offset
0 and apply the final `projects if limit is None else projects[:limit]`. -/
def get_projects_by_type (pages : Nat → List Int) (limitO : Option Nat) (fuel : Nat) :
    List Int × List Nat :=
  let r := gptLoop pages limitO fuel 0 []
  (match limitO with
   | Option.some L => r.1.take L
   | Option.none => r.1, r.2)

/-- The result of one `update_negotiation(pid)` call as `main` observes it:
`(success, updated, changes)` collapsed to the parts the buckets use. -/
inductive Outcome where
  | success (updated : Bool)
  | failure
deriving DecidableEq, Repr

/-- The final run report of `main`: counts of updated and unchanged records,
and the identifiers still failing after the retry pass (with their count). -/
structure Summary where
  updated : Nat
  noChanges : Nat
  failedCount : Nat
  failedIds : List Int
deriving DecidableEq, Repr

/-- One pass of `main`'s bucket loop (filevine_loader_nego_update.py lines
242-251 and 263-273): fold the identifiers through `update_negotiation`
(modelled by the oracle `att pid passIdx`), incrementing the update /
no-change counters or appending to the failed list.  Batch boundaries only
insert sleeps and are not modelled. -/
def runPass (att : Int → Nat → Outcome) (passIdx : Nat) (pids : List Int)
    (acc : Nat × Nat × List Int) : Nat × Nat × List Int :=
  pids.foldl (fun a pid =>
    match att pid passIdx with
    | Outcome.success true => (a.1 + 1, a.2.1, a.2.2)
    | Outcome.success false => (a.1, a.2.1 + 1, a.2.2)
    | Outcome.failure => (a.1, a.2.1, a.2.2 ++ [pid])) acc

/-- `main()` of filevine_loader_nego_update.py (lines 220-294): an empty
identifier list returns early with no summary; otherwise the first pass
fills the buckets, failed identifiers are retried exactly once (pass index
1) when there are any, and the final report then reads `retry_failed` —
a name that is only assigned inside the `if failed_projects:` block, so a
run whose first pass had no failure raises `NameError` at the report
(after printing only the updated/no-change lines). -/
def negoMain (att : Int → Nat → Outcome) (pids : List Int) :
    Except PyErr (Option Summary) :=
  if pids = [] then Except.ok Option.none
  else
    let p1 := runPass att 0 pids (0, 0, [])
    if p1.2.2 ≠ [] then
      let p2 := runPass att 1 p1.2.2 (p1.1, p1.2.1, [])
      Except.ok (Option.some ⟨p2.1, p2.2.1, p2.2.2.length, p2.2.2⟩)
    else Except.error PyErr.nameError

/-- Whether an `Except` computation succeeded (no exception raised). -/
def excIsOk {e a : Type} : Except e a → Bool
  | Except.ok _ => true
  | Except.error _ => false

/-! ### Theorems about the reconciliation pipeline -/

/-- The staged form of `_pick_vital`: the candidate pool is the friendly-name
matches when there are any, otherwise the fieldName-stem matches, then the
type narrowing and first-candidate selection. -/
theorem pick_vital_eq (vitals : List Vital) (fns fps wts : List String) :
    _pick_vital vitals fns fps wts =
      (narrowByType wts (if vitals.filter (labelHit fns) ≠ [] then vitals.filter (labelHit fns)
        else vitals.filter (prefHit fps))).head? := by
  unfold _pick_vital
  by_cases hfn : fns = []
  · subst hfn
    have hl : vitals.filter (labelHit []) = [] := by simp [labelHit]
    by_cases hfp : fps = []
    · subst hfp
      have hp : vitals.filter (prefHit []) = [] := by simp [prefHit]
      simp [hl, hp]
    · simp [hl, hfp]
  · by_cases hc : vitals.filter (labelHit fns) = []
    · by_cases hfp : fps = []
      · subst hfp
        have hp : vitals.filter (prefHit []) = [] := by simp [prefHit]
        simp [hc, hp, hfn]
      · simp [hc, hfp, hfn]
    · simp [hc, hfn]

/-- C3.  Field resolution is tiered and first-match: when any vital's human
label matches (case-insensitively, trailing colons/whitespace ignored), the
result is the first label match in list order after the optional type
narrowing, and the machine-name stems are never consulted (the result is the
same for every stem list); only when no label matches does the stem tier
decide, again first match after narrowing; a type constraint that no
candidate satisfies is dropped silently; and no candidate at all resolves to
`None`, not an error. -/
theorem pick_vital_tiered (vitals : List Vital) (fns fps fps2 wts : List String) :
    (vitals.filter (labelHit fns) ≠ [] →
      _pick_vital vitals fns fps wts = _pick_vital vitals fns fps2 wts ∧
      _pick_vital vitals fns fps wts = (narrowByType wts (vitals.filter (labelHit fns))).head?) ∧
    (vitals.filter (labelHit fns) = [] →
      _pick_vital vitals fns fps wts = (narrowByType wts (vitals.filter (prefHit fps))).head?) ∧
    (∀ cands : List Vital, cands.filter (typeHit wts) = [] → narrowByType wts cands = cands) ∧
    (vitals.filter (labelHit fns) = [] → vitals.filter (prefHit fps) = [] →
      _pick_vital vitals fns fps wts = Option.none) := by
  refine ⟨fun h => ⟨?_, ?_⟩, fun h => ?_, fun cands h => ?_, fun h1 h2 => ?_⟩
  · rw [pick_vital_eq, pick_vital_eq, if_pos h, if_pos h]
  · rw [pick_vital_eq, if_pos h]
  · rw [pick_vital_eq, if_neg (by simp [h])]
  · unfold narrowByType
    by_cases hw : wts ≠ [] ∧ cands ≠ []
    · simp [hw, h]
    · simp [hw]
  · rw [pick_vital_eq, if_neg (by simp [h1]), h2]
    simp [narrowByType]

/-- Witness for C3 at the spec's scenario: the list holds a machine-name
stem match (`sumOfamountbilled37`) before a label match (`"Total Meds:"`);
the label match wins even though it appears later. -/
theorem pick_vital_tiered_witness :
    [vitMachine, vitLabel].filter (labelHit ["Total Meds", "Total Meds:"]) ≠ [] ∧
    _pick_vital [vitMachine, vitLabel] ["Total Meds", "Total Meds:"] ["sumOfamountbilled"]
      ["Currency", "Decimal", "Number"] = Option.some vitLabel ∧
    prefHit ["sumOfamountbilled"] vitMachine = true := by
  refine ⟨by decide, ?_, by decide⟩
  have h := (pick_vital_tiered [vitMachine, vitLabel] ["Total Meds", "Total Meds:"]
    ["sumOfamountbilled"] [] ["Currency", "Decimal", "Number"]).1 (by decide)
  exact h.2.trans (by decide)

/-- C5 counterexample.  A second 401 on the retried request is not a fatal
authentication error for the caller: the raised `HTTPError` is caught inside
`fetch_json`, which returns `{}` — the very value an ordinary successful
request with an empty body returns, so the caller observes an ordinary
successful return value, not a failure. -/
theorem fetch_json_second_401_ordinary_return :
    (fetch_json [⟨401, []⟩, ⟨401, []⟩]).1 = Option.some [] ∧
    (fetch_json [⟨401, []⟩, ⟨401, []⟩]).1 = (fetch_json [⟨200, []⟩]).1 :=
  ⟨rfl, rfl⟩

/-- C5 amended.  On a 401 response `fetch_json` re-obtains headers and
retries the same request exactly once (exactly two HTTP requests are
issued), and when the retry also returns 401 the function swallows the
raised error and returns the empty dict `{}` to the caller. -/
theorem fetch_json_401_retry_once (b1 b2 : Row) (rest : List HttpResp) :
    fetch_json (⟨401, b1⟩ :: ⟨401, b2⟩ :: rest) = (Option.some [], 2) :=
  rfl

/-- C7 counterexample.  The differ does not trim surrounding whitespace and
does not treat `None` and the literal `"unknown"` as equivalent: a pair of
text values differing only by a leading space produces a change entry, and
`None` vs `"unknown"` produces a change entry. -/
theorem detect_changes_untrimmed_unknown_not_none :
    detect_changes [("note", Value.str " x")] [("note", Value.str "x")] =
      Except.ok (true, [("note", Value.str " x", Value.str "x")]) ∧
    detect_changes [("note", Value.none)] [("note", Value.str "unknown")] =
      Except.ok (true, [("note", Value.none, Value.str "unknown")]) :=
  ⟨by decide, by decide⟩

/-- C7 amended.  For text fields the differ compares the exact untrimmed
string forms after coercing falsy values to the empty string
(`str(old or "") != str(new or "")`): the only sentinel equivalence is that
`None` and the empty string produce no change entry, in either direction. -/
theorem detect_changes_none_empty_equivalent (k : String) (h : isAmountKey k = false) :
    detect_changes [(k, Value.none)] [(k, Value.str "")] = Except.ok (false, []) ∧
    detect_changes [(k, Value.str "")] [(k, Value.none)] = Except.ok (false, []) := by
  constructor <;>
    (simp [detect_changes, detectAux, compareField, rowHasKey, rowGet, h, orEmpty, truthy, pyStr]
     ; rfl)

/-- Witness for C7's amended statement at the text field `"note"`. -/
theorem detect_changes_none_empty_equivalent_witness :
    isAmountKey "note" = false ∧
    detect_changes [("note", Value.none)] [("note", Value.str "")] = Except.ok (false, []) := by
  refine ⟨by decide, ?_⟩
  exact (detect_changes_none_empty_equivalent "note" (by decide)).1

/-- C4.  The currency normaliser maps `"$19,970.00"`, `"19970"` and
`"19970.004"` each to exactly 19970.00 (1997000 hundredths — a fixed-point
value with two decimal digits, rounded half-up, as the tie `"0.125" ↦ 0.13`
shows); maps `None`, `""` and `"N/A"` to logical absence; and every string
the decimal parser rejects maps to absence, never to a default of zero. -/
theorem parse_currency_decimal_spec :
    _parse_currency_decimal (Value.str "$19,970.00") = Option.some 1997000 ∧
    _parse_currency_decimal (Value.str "19970") = Option.some 1997000 ∧
    _parse_currency_decimal (Value.str "19970.004") = Option.some 1997000 ∧
    _parse_currency_decimal (Value.str "0.125") = Option.some 13 ∧
    _parse_currency_decimal Value.none = Option.none ∧
    _parse_currency_decimal (Value.str "") = Option.none ∧
    _parse_currency_decimal (Value.str "N/A") = Option.none ∧
    (∀ s : String, parseDecBody (cleanCurrency s) = Option.none →
      _parse_currency_decimal (Value.str s) = Option.none) := by
  refine ⟨by decide, by decide, by decide, by decide, by decide, by decide, by decide, ?_⟩
  intro s h
  unfold _parse_currency_decimal
  split
  · rfl
  · simp [h]

/-- Witness for C4's unparseable-input clause at the string `"abc"`. -/
theorem parse_currency_decimal_spec_witness :
    parseDecBody (cleanCurrency "abc") = Option.none ∧
    _parse_currency_decimal (Value.str "abc") = Option.none :=
  ⟨by decide, parse_currency_decimal_spec.2.2.2.2.2.2.2 "abc" (by decide)⟩

theorem digitChar_ne_dash (n : Nat) : digitChar n ≠ '-' := by
  unfold digitChar; split <;> decide

theorem splitDash_no_dash (xs : List Char) (h : ∀ c ∈ xs, c ≠ '-') :
    splitDash xs = [xs] := by
  induction xs with
  | nil => rfl
  | cons c cs ih =>
    have hc : c ≠ '-' := h c (List.mem_cons_self c cs)
    have := ih (fun x hx => h x (List.mem_cons_of_mem c hx))
    simp [splitDash, hc, this]

theorem splitDash_append (xs ys : List Char) (h : ∀ c ∈ xs, c ≠ '-') :
    splitDash (xs ++ '-' :: ys) = xs :: splitDash ys := by
  induction xs with
  | nil => simp [splitDash]
  | cons c cs ih =>
    have hc : c ≠ '-' := h c (List.mem_cons_self c cs)
    have := ih (fun x hx => h x (List.mem_cons_of_mem c hx))
    simp [splitDash, hc, this]

theorem pad2_mem (n : Nat) (c : Char) (h : c ∈ pad2 n) : c ≠ '-' := by
  unfold pad2 at h
  simp at h
  rcases h with h | h <;> (subst h; exact digitChar_ne_dash _)

theorem pad4_mem (n : Nat) (c : Char) (h : c ∈ pad4 n) : c ≠ '-' := by
  unfold pad4 at h
  simp at h
  rcases h with h | h | h | h <;> (subst h; exact digitChar_ne_dash _)

theorem digitVal_digitChar : ∀ n < 10, digitVal (digitChar n) = n := by decide

theorem isDigitCh_digitChar : ∀ n < 10, isDigitCh (digitChar n) = true := by decide

theorem pad2_length (n : Nat) : (pad2 n).length = 2 := rfl

theorem zfill2_pad2 (n : Nat) : zfill 2 (pad2 n) = pad2 n := by
  unfold zfill; simp [pad2_length]

theorem digitsToNat_pad4 (y : Nat) (hy : y ≤ 9999) : digitsToNat (pad4 y) = y := by
  unfold pad4 digitsToNat
  simp [List.foldl]
  rw [digitVal_digitChar _ (Nat.mod_lt _ (by norm_num)),
      digitVal_digitChar _ (Nat.mod_lt _ (by norm_num)),
      digitVal_digitChar _ (Nat.mod_lt _ (by norm_num)),
      digitVal_digitChar _ (Nat.mod_lt _ (by norm_num))]
  omega

theorem digitsToNat_pad2 (m : Nat) (hm : m ≤ 99) : digitsToNat (pad2 m) = m := by
  unfold pad2 digitsToNat
  simp [List.foldl]
  rw [digitVal_digitChar _ (Nat.mod_lt _ (by norm_num)),
      digitVal_digitChar _ (Nat.mod_lt _ (by norm_num))]
  omega

theorem daysInMonth_le (y m : Nat) : daysInMonth y m ≤ 31 := by
  unfold daysInMonth
  split
  · split <;> omega
  · split <;> omega

/-- C8.  For every valid `MM-DD-YYYY` date string, converting to ISO form
with `mmddyyyy_to_iso` and back with `format_date` reproduces the original
string exactly. -/
theorem mmddyyyy_roundtrip (s : String) (h : isValidMMDDYYYY s) :
    (mmddyyyy_to_iso s).map format_date = Option.some s := by
  obtain ⟨y, m, d, hv, rfl⟩ := h
  obtain ⟨hy1, hy2, hm1, hm2, hd1, hd2⟩ := hv
  have hlen : (renderMMDDYYYY y m d).data.length = 10 := by
    simp [renderMMDDYYYY, pad2, pad4]
  have hguard : ¬(renderMMDDYYYY y m d = "" ∨ renderMMDDYYYY y m d = "N/A") := by
    rintro (he | he) <;> (rw [he] at hlen; simp at hlen)
  unfold mmddyyyy_to_iso
  rw [if_neg hguard]
  have hsplit : splitDash (renderMMDDYYYY y m d).data = [pad2 m, pad2 d, pad4 y] := by
    show splitDash (pad2 m ++ '-' :: (pad2 d ++ '-' :: pad4 y)) = _
    rw [splitDash_append _ _ (pad2_mem m), splitDash_append _ _ (pad2_mem d),
        splitDash_no_dash _ (pad4_mem y)]
  rw [hsplit]
  simp only [Option.map, zfill2_pad2]
  have hne : String.mk (pad4 y ++ '-' :: pad2 m ++ '-' :: pad2 d) ≠ "" := by
    intro he
    have h2 : (pad4 y ++ '-' :: pad2 m ++ '-' :: pad2 d) = [] := congrArg String.data he
    simp [pad4] at h2
  have hparse : parseIsoDate ((String.mk (pad4 y ++ '-' :: pad2 m ++ '-' :: pad2 d)).data.take 10) =
      Option.some (y, m, d) := by
    have hl : (pad4 y ++ '-' :: pad2 m ++ '-' :: pad2 d).length = 10 := by simp [pad2, pad4]
    show parseIsoDate ((pad4 y ++ '-' :: pad2 m ++ '-' :: pad2 d).take 10) = _
    rw [← hl, List.take_length]
    show parseIsoDate [digitChar (y / 1000 % 10), digitChar (y / 100 % 10),
      digitChar (y / 10 % 10), digitChar (y % 10), '-', digitChar (m / 10 % 10),
      digitChar (m % 10), '-', digitChar (d / 10 % 10), digitChar (d % 10)] = _
    simp only [parseIsoDate]
    rw [if_pos, if_pos]
    · rw [show [digitChar (y / 1000 % 10), digitChar (y / 100 % 10), digitChar (y / 10 % 10),
          digitChar (y % 10)] = pad4 y from rfl,
        show [digitChar (m / 10 % 10), digitChar (m % 10)] = pad2 m from rfl,
        show [digitChar (d / 10 % 10), digitChar (d % 10)] = pad2 d from rfl,
        digitsToNat_pad4 y hy2, digitsToNat_pad2 m (by omega),
        digitsToNat_pad2 d (by have := daysInMonth_le y m; omega)]
    · rw [show [digitChar (y / 1000 % 10), digitChar (y / 100 % 10), digitChar (y / 10 % 10),
          digitChar (y % 10)] = pad4 y from rfl,
        show [digitChar (m / 10 % 10), digitChar (m % 10)] = pad2 m from rfl,
        show [digitChar (d / 10 % 10), digitChar (d % 10)] = pad2 d from rfl,
        digitsToNat_pad4 y hy2, digitsToNat_pad2 m (by omega),
        digitsToNat_pad2 d (by have := daysInMonth_le y m; omega)]
      exact ⟨hy1, hy2, hm1, hm2, hd1, hd2⟩
    · refine ⟨by trivial, by trivial, ?_⟩
      simp only [List.all_cons, List.all_nil, Bool.and_eq_true]
      refine ⟨?_, ?_, ?_, ?_, ?_, ?_, ?_, ?_, by trivial⟩ <;>
        exact isDigitCh_digitChar _ (Nat.mod_lt _ (by norm_num))
  unfold format_date
  rw [if_neg hne, hparse]
  rfl

/-- Witness for C8 at the valid date string `"01-02-2023"`. -/
theorem mmddyyyy_roundtrip_witness :
    isValidMMDDYYYY "01-02-2023" ∧
    (mmddyyyy_to_iso "01-02-2023").map format_date = Option.some "01-02-2023" := by
  have hv : isValidMMDDYYYY "01-02-2023" := ⟨2023, 1, 2, by decide, by decide⟩
  exact ⟨hv, mmddyyyy_roundtrip _ hv⟩

theorem take_take_append {α : Type} (n : Nat) (P R : List α) :
    (P.take n ++ R).take n = (P ++ R).take n := by
  rw [List.take_append_eq_append_take, List.take_append_eq_append_take, List.take_take,
    Nat.min_self]
  congr 1
  rw [List.length_take]
  congr 1
  omega

/-- The pagination loop's result does not depend on the fuel bound once the
first empty page is within reach: the loop terminates there. -/
theorem gptLoop_fuel (pages : Nat → List Int) (limitO : Option Nat) (stop : Nat)
    (hstop : pages stop = []) :
    ∀ f1 f2 k acc, stop - k < f1 → stop - k < f2 → k ≤ stop →
      gptLoop pages limitO f1 k acc = gptLoop pages limitO f2 k acc := by
  intro f1
  induction f1 with
  | zero => intro f2 k acc h1 _ _; exact absurd h1 (Nat.not_lt_zero _)
  | succ f1 ih =>
    intro f2 k acc h1 h2 hk
    obtain ⟨f2p, rfl⟩ : ∃ f2p, f2 = f2p + 1 := ⟨f2 - 1, by omega⟩
    by_cases hempty : pages k = []
    · simp [gptLoop, hempty]
    · have hklt : k < stop := by
        rcases Nat.lt_or_ge k stop with h | h
        · exact h
        · have he : k = stop := by omega
          exact absurd (he ▸ hempty) (by simp [hstop])
      cases limitO with
      | none =>
        simp only [gptLoop, hempty, ite_false, reduceIte]
        rw [ih f2p (k + 1) (acc ++ pages k) (by omega) (by omega) (by omega)]
      | some L =>
        simp only [gptLoop, hempty, ite_false, reduceIte]
        rw [ih f2p (k + 1) (acc ++ (pages k).take (L - acc.length)) (by omega) (by omega)
          (by omega)]

/-- Uncapped pagination: the loop returns the accumulator followed by the
concatenation of the pages before the first empty one, and requests exactly
the offsets `k*100, …, stop*100`. -/
theorem gptLoop_none_eq (pages : Nat → List Int) (stop : Nat)
    (hstop : pages stop = []) (hmin : ∀ k < stop, pages k ≠ []) :
    ∀ fuel k acc, k ≤ stop → stop - k < fuel →
      gptLoop pages Option.none fuel k acc =
        (acc ++ (List.range' k (stop - k)).flatMap pages,
         (List.range' k (stop - k + 1)).map (· * 100)) := by
  intro fuel
  induction fuel with
  | zero => intro k acc _ h; exact absurd h (Nat.not_lt_zero _)
  | succ fuel ih =>
    intro k acc hk hf
    by_cases hkstop : k = stop
    · subst hkstop
      simp [gptLoop, hstop, List.range']
    · have hklt : k < stop := by omega
      have hempty := hmin k hklt
      simp only [gptLoop, hempty, ite_false, reduceIte]
      rw [ih (k + 1) (acc ++ pages k) (by omega) (by omega)]
      have h1 : stop - k = (stop - (k + 1)) + 1 := by omega
      rw [h1]
      simp [List.range', List.append_assoc]

/-- The offsets requested by the pagination loop are strictly increasing and
bounded below by the starting offset. -/
theorem gptLoop_offsets (pages : Nat → List Int) (limitO : Option Nat) :
    ∀ fuel k acc,
      List.Chain' (· < ·) (gptLoop pages limitO fuel k acc).2 ∧
      ∀ x ∈ (gptLoop pages limitO fuel k acc).2, k * 100 ≤ x := by
  intro fuel
  induction fuel with
  | zero => intro k acc; exact ⟨List.chain'_nil, by intro x hx; exact absurd hx (by simp [gptLoop])⟩
  | succ fuel ih =>
    intro k acc
    by_cases hempty : pages k = []
    · refine ⟨?_, ?_⟩ <;> simp [gptLoop, hempty]
    · cases limitO with
      | none =>
        simp only [gptLoop, hempty, ite_false, reduceIte]
        have hr := ih (k + 1) (acc ++ pages k)
        refine ⟨?_, ?_⟩
        · rw [List.chain'_cons']
          refine ⟨fun b hb => ?_, hr.1⟩
          have hmem : b ∈ (gptLoop pages Option.none fuel (k + 1) (acc ++ pages k)).2 :=
            List.mem_of_mem_head? hb
          have := hr.2 b hmem
          omega
        · intro x hx
          rcases List.mem_cons.mp hx with h | h
          · omega
          · have := hr.2 x h
            omega
      | some L =>
        simp only [gptLoop, hempty, ite_false, reduceIte]
        by_cases hcap : (acc ++ (pages k).take (L - acc.length)).length ≥ L
        · simp only [hcap, if_pos, ite_true, reduceIte]
          exact ⟨List.chain'_singleton _, by intro x hx; simp at hx; omega⟩
        · simp only [hcap, ite_false, reduceIte]
          have hr := ih (k + 1) (acc ++ (pages k).take (L - acc.length))
          refine ⟨?_, ?_⟩
          · rw [List.chain'_cons']
            refine ⟨fun b hb => ?_, hr.1⟩
            have hmem : b ∈ (gptLoop pages (Option.some L) fuel (k + 1)
                (acc ++ (pages k).take (L - acc.length))).2 := List.mem_of_mem_head? hb
            have := hr.2 b hmem
            omega
          · intro x hx
            rcases List.mem_cons.mp hx with h | h
            · omega
            · have := hr.2 x h
              omega

/-- Capped pagination: up to the cap, the loop's accumulated ids agree with
the uncapped concatenation, and their number never exceeds the cap. -/
theorem gptLoop_some_take (pages : Nat → List Int) (stop L : Nat)
    (hstop : pages stop = []) (hmin : ∀ k < stop, pages k ≠ []) :
    ∀ fuel k acc, k ≤ stop → stop - k < fuel → acc.length ≤ L →
      (gptLoop pages (Option.some L) fuel k acc).1.take L =
        (acc ++ (List.range' k (stop - k)).flatMap pages).take L ∧
      (gptLoop pages (Option.some L) fuel k acc).1.length ≤ L := by
  intro fuel
  induction fuel with
  | zero => intro k acc _ h _; exact absurd h (Nat.not_lt_zero _)
  | succ fuel ih =>
    intro k acc hk hf ha
    by_cases hkstop : k = stop
    · subst hkstop
      simp only [gptLoop, hstop, ite_true, reduceIte, Nat.sub_self]
      constructor
      · simp [List.range']
      · exact ha
    · have hklt : k < stop := by omega
      have hempty := hmin k hklt
      have hsplitr : List.range' k (stop - k) = k :: List.range' (k + 1) (stop - (k + 1)) := by
        have h1 : stop - k = (stop - (k + 1)) + 1 := by omega
        rw [h1]
        simp [List.range']
      simp only [gptLoop, hempty, ite_false, reduceIte]
      by_cases hcap : (acc ++ (pages k).take (L - acc.length)).length ≥ L
      · simp only [hcap, ite_true, reduceIte]
        have hlenp : L - acc.length ≤ (pages k).length := by
          rw [List.length_append, List.length_take] at hcap
          omega
        have hlen2 : (acc ++ (pages k).take (L - acc.length)).length = L := by
          rw [List.length_append, List.length_take]
          omega
        constructor
        · rw [List.take_of_length_le (le_of_eq hlen2), hsplitr]
          have hfm : (k :: List.range' (k + 1) (stop - (k + 1))).flatMap pages =
              pages k ++ (List.range' (k + 1) (stop - (k + 1))).flatMap pages := by
            simp
          rw [hfm, List.take_append_eq_append_take,
            List.take_of_length_le (by omega : acc.length ≤ L),
            List.take_append_eq_append_take]
          have h0 : L - acc.length - (pages k).length = 0 := by omega
          simp [h0]
        · omega
      · simp only [hcap, ite_false, reduceIte]
        have hr := ih (k + 1) (acc ++ (pages k).take (L - acc.length)) (by omega) (by omega)
          (by omega)
        constructor
        · rw [hr.1, hsplitr]
          have hfm : (k :: List.range' (k + 1) (stop - (k + 1))).flatMap pages =
              pages k ++ (List.range' (k + 1) (stop - (k + 1))).flatMap pages := by
            simp
          have e1 : List.take L ((acc ++ (pages k).take (L - acc.length)) ++
                (List.range' (k + 1) (stop - (k + 1))).flatMap pages) =
              List.take L acc ++ List.take (L - acc.length) ((pages k).take (L - acc.length) ++
                (List.range' (k + 1) (stop - (k + 1))).flatMap pages) := by
            rw [List.append_assoc, List.take_append_eq_append_take]
          have e2 : List.take L (acc ++ (pages k ++
                (List.range' (k + 1) (stop - (k + 1))).flatMap pages)) =
              List.take L acc ++ List.take (L - acc.length) (pages k ++
                (List.range' (k + 1) (stop - (k + 1))).flatMap pages) := by
            rw [List.take_append_eq_append_take]
          rw [hfm, e1, e2, take_take_append]
        · exact hr.2

/-- C9.  For every paged source whose pages are non-empty up to the first
empty page at index `stop`, the pagination loop of `get_projects_by_type`
terminates there (its result is independent of any sufficient fuel bound),
requests strictly increasing offsets, and returns exactly the concatenation
of the items of the non-empty pages — truncated to the caller-supplied cap
when a numeric limit is given, in which case the result length never
exceeds that cap. -/
theorem get_projects_pagination (pages : Nat → List Int) (stop fuel : Nat)
    (limitO : Option Nat) (hstop : pages stop = []) (hmin : ∀ k < stop, pages k ≠ [])
    (hfuel : stop < fuel) :
    get_projects_by_type pages limitO fuel = get_projects_by_type pages limitO (stop + 1) ∧
    List.Chain' (· < ·) (get_projects_by_type pages limitO fuel).2 ∧
    (limitO = Option.none →
      (get_projects_by_type pages limitO fuel).1 = (List.range stop).flatMap pages) ∧
    (∀ L, limitO = Option.some L →
      (get_projects_by_type pages limitO fuel).1 = ((List.range stop).flatMap pages).take L ∧
      (get_projects_by_type pages limitO fuel).1.length ≤ L) := by
  refine ⟨?_, ?_, ?_, ?_⟩
  · unfold get_projects_by_type
    rw [gptLoop_fuel pages limitO stop hstop fuel (stop + 1) 0 [] (by omega) (by omega)
      (by omega)]
  · unfold get_projects_by_type
    exact (gptLoop_offsets pages limitO fuel 0 []).1
  · intro h
    subst h
    unfold get_projects_by_type
    rw [gptLoop_none_eq pages stop hstop hmin fuel 0 [] (by omega) (by omega)]
    simp [List.range_eq_range']
  · intro L h
    subst h
    unfold get_projects_by_type
    have ht := gptLoop_some_take pages stop L hstop hmin fuel 0 [] (by omega) (by omega)
      (by simp)
    constructor
    · rw [show (List.range stop) = List.range' 0 stop from List.range_eq_range' stop]
      have := ht.1
      simpa using this
    · simp only []
      rw [List.length_take]
      omega

/-- Witness for C9 at the spec's mock source (pages of decreasing size down
to an empty page), uncapped and with cap 2. -/
theorem get_projects_pagination_witness :
    samplePages 2 = [] ∧
    (get_projects_by_type samplePages Option.none 10).1 = (List.range 2).flatMap samplePages ∧
    List.Chain' (· < ·) (get_projects_by_type samplePages Option.none 10).2 ∧
    (get_projects_by_type samplePages (Option.some 2) 10).1 =
      ((List.range 2).flatMap samplePages).take 2 := by
  have hmin : ∀ k < 2, samplePages k ≠ [] := by decide
  have h1 := get_projects_pagination samplePages 2 10 Option.none rfl hmin (by omega)
  have h2 := get_projects_pagination samplePages 2 10 (Option.some 2) rfl hmin (by omega)
  exact ⟨rfl, h1.2.2.1 rfl, h1.2.1, (h2.2.2.2 2 rfl).1⟩

/-- C10.  The run summary is only produced when the first pass had at least
one failure: on an all-success run, `retry_failed` was never assigned and
the report raises `NameError` before the failed count and failed list are
printed.  When there are first-pass failures, each failed identifier is
retried exactly once (pass index 1) and the summary reports the bucket
counts together with the explicit list of identifiers that still failed:
with ids 1,2,3 where 2 fails only on the first pass and 3 fails both times,
the summary counts 2 updated and surfaces `[3]`. -/
theorem nego_main_report :
    negoMain (fun _ _ => Outcome.success true) [1, 2] = Except.error PyErr.nameError ∧
    negoMain (fun pid k =>
        if pid = 2 ∧ k = 0 then Outcome.failure
        else if pid = 3 then Outcome.failure
        else Outcome.success true) [1, 2, 3] =
      Except.ok (Option.some ⟨2, 0, 1, [3]⟩) :=
  ⟨rfl, rfl⟩

/-- C1.  For a record identifier with no persisted snapshot the diff step
marks nothing dirty: `detect_changes` iterates over the keys of the persisted
snapshot, so an empty persisted snapshot yields an empty change-set for every
new snapshot, and `load_project` takes its "no changes detected" early return
and performs no write at all — the code does NOT force a full initial write
of the seven entities for a never-before-seen record, contradicting the
specified behaviour. -/
theorem detect_changes_empty_current_never_dirty :
    (∀ d : Row, detect_changes [] d = Except.ok (false, [])) ∧
    (∀ (pid : Int) (now : Nat) (nd : NewData),
      load_project pid now emptyStore false nd = Except.ok (emptyStore, [])) :=
  ⟨fun _ => rfl, fun _ _ _ => rfl⟩

/-- C2.  Running `load_project` twice with identical upstream data does not
yield an empty change-set on the second run: a dirty record can never be
brought up to date, because every UPSERT string of this loader is a
PostgreSQL syntax error (the dangling `last_updated = NOW()` clause after
the statement-ending semicolon), so the first run's transaction raises and
rolls back without writing, the persisted rows are unchanged, and the
second run recomputes the same non-empty negotiation change-set and fails
the same way.  (Zero rows are ever written — but the claimed empty second
change-set is false.) -/
theorem load_project_not_idempotent :
    load_project 1 60 sampleStore false sampleNewData =
      Except.error PyErr.programmingError ∧
    load_project 1 70 sampleStore false sampleNewData =
      Except.error PyErr.programmingError ∧
    detect_changes (currentRowOf sampleStore "negotiation") sampleNewData.negotiation =
      Except.ok (true, [("settled_amount", Value.num 100, Value.num 200)]) := by
  refine ⟨by decide, by decide, by decide⟩

theorem exc_bind_ok {e a b : Type} (x : a) (f : a → Except e b) :
    (Except.ok x >>= f) = f x := rfl

theorem exc_pure {e a : Type} (x : a) : (pure x : Except e a) = Except.ok x := rfl

theorem exc_bind_err {e a b : Type} (x : e) (f : a → Except e b) :
    (Except.error x >>= f) = Except.error x := rfl

theorem exc_map_ok {e a b : Type} (f : a → b) (x : a) :
    (f <$> (Except.ok x : Except e a)) = Except.ok (f x) := rfl

theorem exc_map_err {e a b : Type} (f : a → b) (x : e) :
    (f <$> (Except.error x : Except e a)) = Except.error x := rfl

theorem exc_emap_ok {e a b : Type} (f : a → b) (x : a) :
    Except.map f (Except.ok x : Except e a) = Except.ok (f x) := rfl

theorem exc_emap_err {e a b : Type} (f : a → b) (x : e) :
    Except.map f (Except.error x : Except e a) = Except.error x := rfl

theorem rowGet_of_mem_nodup {r : Row} {k : String} {v : Value}
    (hnd : (r.map Prod.fst).Nodup) (hmem : (k, v) ∈ r) : rowGet r k = Option.some v := by
  induction r with
  | nil => exact absurd hmem (List.not_mem_nil _)
  | cons kv rest ih =>
    rcases List.mem_cons.mp hmem with h | h
    · subst h
      simp [rowGet]
    · have hk : kv.1 ≠ k := by
        intro he
        have : k ∈ rest.map Prod.fst := List.mem_map_of_mem Prod.fst h
        rw [List.map_cons] at hnd
        exact (List.nodup_cons.mp hnd).1 (he ▸ this)
      have hnd2 : (rest.map Prod.fst).Nodup := by
        rw [List.map_cons] at hnd
        exact (List.nodup_cons.mp hnd).2
      cases kv with
      | mk k1 v1 =>
        simp only [rowGet, if_neg hk]
        exact ih hnd2 h

theorem rowGet_append_mid (l1 l2 : Row) (k0 : String) (w : Value)
    (h : rowHasKey l1 k0 = false) :
    rowGet (l1 ++ (k0, w) :: l2) k0 = Option.some w := by
  induction l1 with
  | nil => simp [rowGet]
  | cons kv rest ih =>
    simp only [rowHasKey, Bool.or_eq_false_iff] at h
    cases kv with
    | mk k1 v1 =>
      simp only [List.cons_append, rowGet]
      rw [if_neg (by simpa using h.1)]
      exact ih h.2

theorem rowHasKey_iff_mem (r : Row) (k : String) :
    rowHasKey r k = true ↔ k ∈ r.map Prod.fst := by
  induction r with
  | nil => simp [rowHasKey]
  | cons kv rest ih =>
    cases kv with
    | mk k1 v1 =>
      simp only [rowHasKey, List.map_cons, List.mem_cons, Bool.or_eq_true, decide_eq_true_eq, ih]
      constructor
      · rintro (h | h)
        · exact Or.inl h.symm
        · exact Or.inr h
      · rintro (h | h)
        · exact Or.inl h.symm
        · exact Or.inr h

theorem detectAux_append (new : Row) (a b : List (String × Value)) :
    detectAux new (a ++ b) = (do
      let ca ← detectAux new a
      let cb ← detectAux new b
      Except.ok (ca ++ cb)) := by
  induction a with
  | nil =>
    simp only [List.nil_append, detectAux]
    cases detectAux new b <;> rfl
  | cons kv rest ih =>
    cases kv with
    | mk k v =>
      simp only [List.cons_append, detectAux]
      by_cases h : rowHasKey new k = true
      · simp only [h, ite_true, reduceIte]
        cases hc : compareField k v ((rowGet new k).getD Value.none) with
        | error e => simp [hc, exc_bind_err]
        | ok c =>
          simp only [hc, exc_bind_ok, List.append_eq]
          rw [ih]
          cases detectAux new rest with
          | error e => simp [exc_bind_err, exc_bind_ok, exc_map_err]
          | ok ca =>
            cases detectAux new b <;>
              simp [exc_bind_err, exc_bind_ok, exc_map_err, exc_map_ok, exc_pure,
                List.append_assoc]
      · simp only [h, ite_false, reduceIte]
        exact ih

theorem compareField_self (k : String) (v : Value)
    (hc : isAmountKey k = true → excIsOk (toAmountE v) = true) :
    compareField k v v = Except.ok Option.none := by
  by_cases ha : isAmountKey k = true
  · cases hv : toAmountE v with
    | error e => rw [hv] at hc; simp [excIsOk] at hc; exact absurd hc (by simp [ha])
    | ok w => simp [compareField, ha, hv, exc_bind_ok, exc_pure]
  · simp [compareField, ha, exc_bind_ok, exc_pure]

theorem detectAux_clean (new : Row) (l : List (String × Value))
    (h : ∀ kv ∈ l, rowHasKey new kv.1 = true →
      compareField kv.1 kv.2 ((rowGet new kv.1).getD Value.none) = Except.ok Option.none) :
    detectAux new l = Except.ok [] := by
  induction l with
  | nil => rfl
  | cons kv rest ih =>
    cases kv with
    | mk k v =>
      simp only [detectAux]
      by_cases hk : rowHasKey new k = true
      · rw [h (k, v) (List.mem_cons_self _ _) hk, ih (fun kv2 hm => h kv2 (List.mem_cons_of_mem _ hm))]
        simp [hk, exc_bind_ok, exc_pure]
      · simp only [hk, ite_false, reduceIte]
        exact ih (fun kv2 hm => h kv2 (List.mem_cons_of_mem _ hm))

theorem detect_changes_self_clean (new : Row) (k0 : String) (v0 : Value)
    (hnd : (new.map Prod.fst).Nodup)
    (hconv : ∀ kv ∈ new, isAmountKey kv.1 = true → excIsOk (toAmountE kv.2) = true)
    (hk0 : rowHasKey new k0 = false) :
    detect_changes (new ++ [(k0, v0)]) new = Except.ok (false, []) := by
  unfold detect_changes
  rw [detectAux_append]
  have h1 : detectAux new new = Except.ok [] := by
    apply detectAux_clean
    intro kv hm _
    have hg : rowGet new kv.1 = Option.some kv.2 := rowGet_of_mem_nodup hnd (by simpa using hm)
    rw [hg]
    exact compareField_self kv.1 kv.2 (hconv kv hm)
  have h2 : detectAux new [(k0, v0)] = Except.ok [] := by
    simp [detectAux, hk0]
  rw [h1, h2]
  rfl

theorem detect_changes_single_amount (l1 l2 : Row) (oldA newA : Rat) (ts : Nat)
    (hnd : ((l1 ++ ("settled_amount", Value.num newA) :: l2).map Prod.fst).Nodup)
    (hconv : ∀ kv ∈ l1 ++ ("settled_amount", Value.num newA) :: l2,
      isAmountKey kv.1 = true → excIsOk (toAmountE kv.2) = true)
    (hlu : rowHasKey (l1 ++ ("settled_amount", Value.num newA) :: l2) "last_updated" = false)
    (hobs : pyStr (orEmpty (Value.num oldA)) ≠ pyStr (orEmpty (Value.num newA))) :
    detect_changes (l1 ++ ("settled_amount", Value.num oldA) :: (l2 ++ [("last_updated", Value.time ts)]))
      (l1 ++ ("settled_amount", Value.num newA) :: l2) =
      Except.ok (true, [("settled_amount", Value.num oldA, Value.num newA)]) := by
  have hsa1 : rowHasKey l1 "settled_amount" = false := by
    rw [Bool.eq_false_iff]
    intro hc
    have hmem := (rowHasKey_iff_mem l1 "settled_amount").mp hc
    have hd := List.disjoint_of_nodup_append (by simpa using hnd)
    exact hd hmem (by simp)
  have hmemnew : rowHasKey (l1 ++ ("settled_amount", Value.num newA) :: l2) "settled_amount" = true := by
    rw [rowHasKey_iff_mem]
    simp
  have hgetnew : rowGet (l1 ++ ("settled_amount", Value.num newA) :: l2) "settled_amount" =
      Option.some (Value.num newA) := rowGet_append_mid _ _ _ _ hsa1
  unfold detect_changes
  rw [detectAux_append]
  have h1 : detectAux (l1 ++ ("settled_amount", Value.num newA) :: l2) l1 = Except.ok [] := by
    apply detectAux_clean
    intro kv hm _
    have hg : rowGet (l1 ++ ("settled_amount", Value.num newA) :: l2) kv.1 = Option.some kv.2 :=
      rowGet_of_mem_nodup hnd (by simp; left; simpa using hm)
    rw [hg]
    exact compareField_self kv.1 kv.2 (hconv kv (by simp [List.mem_append]; left; exact hm))
  rw [h1]
  have h2 : detectAux (l1 ++ ("settled_amount", Value.num newA) :: l2)
      (("settled_amount", Value.num oldA) :: (l2 ++ [("last_updated", Value.time ts)])) =
      Except.ok [("settled_amount", Value.num oldA, Value.num newA)] := by
    simp only [detectAux, hmemnew, ite_true, reduceIte, hgetnew, Option.getD_some]
    have hcf : compareField "settled_amount" (Value.num oldA) (Value.num newA) =
        Except.ok (Option.some ("settled_amount", Value.num oldA, Value.num newA)) := by
      unfold compareField
      rw [if_pos (show isAmountKey "settled_amount" = true by decide)]
      rw [show toAmountE (Value.num oldA) = Except.ok (Value.num oldA) from rfl,
          show toAmountE (Value.num newA) = Except.ok (Value.num newA) from rfl]
      simp only [exc_bind_ok, exc_pure]
      rw [if_pos hobs]
    rw [hcf]
    rw [detectAux_append]
    have h3 : detectAux (l1 ++ ("settled_amount", Value.num newA) :: l2) l2 = Except.ok [] := by
      apply detectAux_clean
      intro kv hm _
      have hg : rowGet (l1 ++ ("settled_amount", Value.num newA) :: l2) kv.1 = Option.some kv.2 :=
        rowGet_of_mem_nodup hnd (by simp; right; right; simpa using hm)
      rw [hg]
      exact compareField_self kv.1 kv.2 (hconv kv (by simp [List.mem_append]; right; right; exact hm))
    have h4 : detectAux (l1 ++ ("settled_amount", Value.num newA) :: l2)
        [("last_updated", Value.time ts)] = Except.ok [] := by
      simp [detectAux, hlu]
    rw [h3, h4]
    simp [exc_bind_ok, exc_pure]
  rw [h2]
  rfl

theorem rowGet_isSome_of_hasKey {r : Row} {k : String} (h : rowHasKey r k = true) :
    ∃ v, rowGet r k = Option.some v := by
  induction r with
  | nil => simp [rowHasKey] at h
  | cons kv rest ih =>
    cases kv with
    | mk k1 v1 =>
      by_cases he : k1 = k
      · exact ⟨v1, by simp [rowGet, he]⟩
      · simp only [rowHasKey, Bool.or_eq_true, decide_eq_true_eq] at h
        rcases h with h | h
        · exact absurd h he
        · obtain ⟨v, hv⟩ := ih h
          exact ⟨v, by simp [rowGet, he, hv]⟩

theorem hasKey_rowSet_self (r : Row) (k : String) (v : Value) :
    rowHasKey (rowSet r k v) k = true := by
  induction r with
  | nil => simp [rowSet, rowHasKey]
  | cons kv rest ih =>
    cases kv with
    | mk k1 v1 =>
      by_cases he : k1 = k
      · simp [rowSet, he, rowHasKey]
      · simp [rowSet, he, rowHasKey, ih]

theorem hasKey_rowSet_of {r : Row} {p : String} (k : String) (v : Value)
    (h : rowHasKey r p = true) : rowHasKey (rowSet r k v) p = true := by
  induction r with
  | nil => simp [rowHasKey] at h
  | cons kv rest ih =>
    cases kv with
    | mk k1 v1 =>
      simp only [rowHasKey, Bool.or_eq_true, decide_eq_true_eq] at h
      by_cases he : k1 = k
      · subst he
        simp only [rowSet, if_pos rfl, rowHasKey, Bool.or_eq_true, decide_eq_true_eq]
        exact h
      · simp only [rowSet, if_neg he, rowHasKey, Bool.or_eq_true, decide_eq_true_eq]
        rcases h with h | h
        · exact Or.inl h
        · exact Or.inr (ih h)

theorem hasKey_rowUpdate_left (p : String) :
    ∀ (o r : Row), rowHasKey r p = true → rowHasKey (rowUpdate r o) p = true := by
  intro o
  induction o with
  | nil => intro r h; exact h
  | cons kv rest ih =>
    intro r h
    unfold rowUpdate
    simp only [List.foldl]
    exact ih (rowSet r kv.1 kv.2) (hasKey_rowSet_of kv.1 kv.2 h)

theorem hasKey_rowUpdate_right (p : String) :
    ∀ (o r : Row), rowHasKey o p = true → rowHasKey (rowUpdate r o) p = true := by
  intro o
  induction o with
  | nil => intro r h; simp [rowHasKey] at h
  | cons kv rest ih =>
    intro r h
    cases kv with
    | mk k1 v1 =>
      simp only [rowHasKey, Bool.or_eq_true, decide_eq_true_eq] at h
      unfold rowUpdate
      simp only [List.foldl]
      by_cases he : k1 = p
      · subst he
        exact hasKey_rowUpdate_left k1 rest (rowSet r k1 v1) (hasKey_rowSet_self r k1 v1)
      · rcases h with h | h
        · exact absurd h he
        · exact ih (rowSet r k1 v1) h

theorem extractCols_isSome (merged : Row) :
    ∀ spec, (∀ cp ∈ spec, rowHasKey merged cp.2 = true) →
      ∃ cols, extractCols merged spec = Option.some cols := by
  intro spec
  induction spec with
  | nil => exact fun _ => ⟨[], rfl⟩
  | cons cp rest ih =>
    intro h
    obtain ⟨v, hv⟩ := rowGet_isSome_of_hasKey (h cp (List.mem_cons_self _ _))
    obtain ⟨cols, hcols⟩ := ih (fun c hm => h c (List.mem_cons_of_mem _ hm))
    exact ⟨(cp.1, v) :: cols, by simp [extractCols, hv, hcols]⟩


theorem merged_hasKey_of_nego (pid : Int) (now : Nat) (nd : NewData) (p : String)
    (hp : rowHasKey nd.negotiation p = true) :
    rowHasKey (mergedUpdateData pid now nd) p = true := by
  unfold mergedUpdateData
  simp only [List.foldl]
  apply hasKey_rowUpdate_left
  apply hasKey_rowUpdate_left
  apply hasKey_rowUpdate_left
  apply hasKey_rowUpdate_left
  apply hasKey_rowUpdate_left
  exact hasKey_rowUpdate_right p nd.negotiation _ hp

theorem merged_hasKey_pid (pid : Int) (now : Nat) (nd : NewData) :
    rowHasKey (mergedUpdateData pid now nd) "project_id" = true := by
  unfold mergedUpdateData
  simp only [List.foldl]
  apply hasKey_rowUpdate_left
  apply hasKey_rowUpdate_left
  apply hasKey_rowUpdate_left
  apply hasKey_rowUpdate_left
  apply hasKey_rowUpdate_left
  apply hasKey_rowUpdate_left
  apply hasKey_rowUpdate_left
  rfl

/-- With all its named parameters present in the merged `update_data`, the
negotiation upsert passes the client-side bind and then raises the server's
syntax error (dangling `last_updated = NOW()` clause). -/
theorem execUpsert_nego_raises (pid : Int) (now : Nat) (nd : NewData) (old : Option Row)
    (hps : ∀ p ∈ ["negotiator", "settlement_date", "settled", "settled_amount",
      "last_offer", "last_offer_date", "date_assigned_to_nego"],
      rowHasKey nd.negotiation p = true) :
    execUpsert specNegotiation (mergedUpdateData pid now nd) old now =
      Except.error PyErr.programmingError := by
  have hall : ∀ cp ∈ specNegotiation, rowHasKey (mergedUpdateData pid now nd) cp.2 = true := by
    intro cp hm
    fin_cases hm
    · exact merged_hasKey_pid pid now nd
    · exact merged_hasKey_of_nego pid now nd _ (hps _ (by decide))
    · exact merged_hasKey_of_nego pid now nd _ (hps _ (by decide))
    · exact merged_hasKey_of_nego pid now nd _ (hps _ (by decide))
    · exact merged_hasKey_of_nego pid now nd _ (hps _ (by decide))
    · exact merged_hasKey_of_nego pid now nd _ (hps _ (by decide))
    · exact merged_hasKey_of_nego pid now nd _ (hps _ (by decide))
    · exact merged_hasKey_of_nego pid now nd _ (hps _ (by decide))
  obtain ⟨cols, hcols⟩ := extractCols_isSome _ _ hall
  unfold execUpsert
  rw [hcols]

/-- C6 amended.  For a record already present in the store whose persisted
rows all equal the freshly fetched rows except that the negotiation row's
`settled_amount` changed (to an observably different float), the computed
change-set contains exactly one entity — negotiation — with exactly one
changed field, and the write phase attempts the negotiation upsert only;
but that UPSERT string is a PostgreSQL syntax error (dangling
`last_updated = NOW()` clause), so the execute raises, the transaction
rolls back and `load_project` re-raises: the pass writes nothing at all —
every entity's persisted row, `last_updated` included, is left unchanged
because the record is marked failed, not because a single-entity write
succeeded. -/
theorem load_project_settled_amount_only
    (pid : Int) (now : Nat) (s : Store) (nd : NewData)
    (tsf : String → Nat) (tsn : Nat) (oldA newA : Rat) (l1 l2 : Row)
    (hother : ∀ t ∈ tablesList, t ≠ "negotiation" →
      s.get t = Option.some (ndRow nd t ++ [("last_updated", Value.time (tsf t))]))
    (hnd : ∀ t ∈ tablesList, ((ndRow nd t).map Prod.fst).Nodup)
    (hconv : ∀ t ∈ tablesList, ∀ kv ∈ ndRow nd t,
      isAmountKey kv.1 = true → excIsOk (toAmountE kv.2) = true)
    (hnolu : ∀ t ∈ tablesList, rowHasKey (ndRow nd t) "last_updated" = false)
    (hsplit : nd.negotiation = l1 ++ ("settled_amount", Value.num newA) :: l2)
    (hnego : s.negotiation = Option.some
      (l1 ++ ("settled_amount", Value.num oldA) :: (l2 ++ [("last_updated", Value.time tsn)])))
    (hobs : pyStr (orEmpty (Value.num oldA)) ≠ pyStr (orEmpty (Value.num newA)))
    (hps : ∀ p ∈ ["negotiator", "settlement_date", "settled", "settled_amount",
      "last_offer", "last_offer_date", "date_assigned_to_nego"],
      rowHasKey nd.negotiation p = true) :
    detect_changes (currentRowOf s "negotiation") nd.negotiation =
      Except.ok (true, [("settled_amount", Value.num oldA, Value.num newA)]) ∧
    load_project pid now s false nd = Except.error PyErr.programmingError := by
  have hdiff : ∀ t ∈ tablesList, t ≠ "negotiation" → diffTable s nd t = Except.ok false := by
    intro t ht htne
    unfold diffTable currentRowOf
    rw [hother t ht htne]
    simp only [Option.getD_some]
    rw [detect_changes_self_clean (ndRow nd t) "last_updated" (Value.time (tsf t))
      (hnd t ht) (hconv t ht) (hnolu t ht)]
    rfl
  have hcn2 : detect_changes (currentRowOf s "negotiation") nd.negotiation =
      Except.ok (true, [("settled_amount", Value.num oldA, Value.num newA)]) := by
    unfold currentRowOf
    rw [show Store.get s "negotiation" = s.negotiation from rfl, hnego]
    simp only [Option.getD_some]
    have hndN : ((nd.negotiation).map Prod.fst).Nodup := hnd "negotiation" (by decide)
    have hconvN : ∀ kv ∈ nd.negotiation, isAmountKey kv.1 = true →
        excIsOk (toAmountE kv.2) = true := hconv "negotiation" (by decide)
    have hnoluN : rowHasKey nd.negotiation "last_updated" = false :=
      hnolu "negotiation" (by decide)
    rw [hsplit] at hndN hconvN hnoluN ⊢
    exact detect_changes_single_amount l1 l2 oldA newA tsn hndN hconvN hnoluN hobs
  have hcn : diffTable s nd "negotiation" = Except.ok true := by
    unfold diffTable
    rw [show ndRow nd "negotiation" = nd.negotiation from rfl, hcn2]
    rfl
  have hw := execUpsert_nego_raises pid now nd s.negotiation hps
  have h1 := hdiff "projects" (by decide) (by decide)
  have h2 := hdiff "contacts" (by decide) (by decide)
  have h3 := hdiff "insurance_info" (by decide) (by decide)
  have h4 := hdiff "breakdown_info" (by decide) (by decide)
  have h5 := hdiff "lit_case_review" (by decide) (by decide)
  have h6 := hdiff "demand_info" (by decide) (by decide)
  refine ⟨hcn2, ?_⟩
  simp only [load_project, h1, h2, h3, h4, h5, h6, hcn, hw, exc_bind_ok, exc_bind_err,
    Bool.false_or, Bool.or_false, Bool.true_or, Bool.or_true, ite_true, ite_false,
    reduceIte, exc_map_ok, exc_map_err, exc_emap_ok, exc_pure]
  simp [exc_bind_ok, exc_bind_err, exc_map_ok, exc_map_err, exc_emap_ok, exc_pure, exc_emap_err]

/-- C6 counterexample.  At the exact scenario of the claim — every persisted
row equals its fetched row except negotiation's `settled_amount` (100.0 vs
200.0), so the change-set is the one-entity one-field singleton — the write
phase does not update that entity's row: the negotiation upsert raises the
syntax error of its malformed SQL string and `load_project` fails, writing
nothing, instead of executing an upsert for that entity only. -/
theorem load_project_settled_amount_only_counterexample :
    detect_changes (currentRowOf sampleStore "negotiation") sampleNewData.negotiation =
      Except.ok (true, [("settled_amount", Value.num 100, Value.num 200)]) ∧
    load_project 1 60 sampleStore false sampleNewData = Except.error PyErr.programmingError :=
  ⟨by decide, by decide⟩

/-- Witness for C6's amended statement at the concrete record of
`sampleStore`/`sampleNewData`: only `settled_amount` changed (100.0 to
200.0); the diff is the singleton and the pass fails at the negotiation
upsert without writing. -/
theorem load_project_settled_amount_only_witness :
    detect_changes (currentRowOf sampleStore "negotiation") sampleNewData.negotiation =
      Except.ok (true, [("settled_amount", Value.num 100, Value.num 200)]) ∧
    load_project 1 60 sampleStore false sampleNewData = Except.error PyErr.programmingError :=
  load_project_settled_amount_only 1 60 sampleStore sampleNewData (fun _ => 50) 50 100 200
    [("project_id", Value.int 1), ("negotiator", Value.str "Bob"),
      ("settlement_date", Value.str "2020-01-01"), ("settled", Value.str "N/A")]
    [("last_offer", Value.str "N/A"), ("last_offer_date", Value.none),
      ("date_assigned_to_nego", Value.none)]
    (by decide) (by decide) (by decide) (by decide) (by decide) (by decide) (by decide)
    (by decide)

end FilevineDash
